import Mathlib

/-!
Shallow embedding of `app.py` (invite users into a cloud account, attach them to an
access group, create a time-limited policy; a `/cleanup` route removes members
older than 7 days).

Modelling conventions:
* Timestamps are `Int` seconds (UTC).  The source formats instants with
  `strftime("%Y-%m-%dT%H:%M:%S+00:00")`, i.e. at second granularity, so second
  granularity loses nothing the claims depend on.
* Python truthiness of optional strings (`None` and `""` are falsy) is `truthyStr`;
  the `a or b` idiom on such values is `pyOr`.
* JSON dictionaries are association lists `List (String × String)` for the profile
  fields the code inspects; `dict.get` is `dictGet`.
* Each HTTP handler is a pure function over an explicit environment describing what
  the external services would answer, and it returns the HTTP status, the list of
  external calls it performed (in order), and its observable outputs.  A call that
  raises in Python (transport error) is modelled where a claim depends on it
  (member deletion); the token exchange and lookups are modelled as succeeding.
* `dateutil.parser.parse` is an external library; it enters as an explicit
  parameter `parseTs : String → Option Int` (returns `none` when parsing raises).
-/

/-- Python truthiness of an optional string: `None` and `""` are falsy. -/
def truthyStr : Option String → Bool
  | none => false
  | some s => !s.isEmpty

/-- Python `a or b` on optional strings: the first truthy operand, else `b`. -/
def pyOr (a b : Option String) : Option String :=
  if truthyStr a then a else b

/-- Python truthiness of an optional list: `None` and `[]` are falsy. -/
def truthyList {α : Type} : Option (List α) → Bool
  | none => false
  | some l => !l.isEmpty

/-- Python `a or b` on optional lists. -/
def pyOrList {α : Type} (a b : Option (List α)) : Option (List α) :=
  if truthyList a then a else b

/-- Does `hay` start with `needle`?  (first argument of `seqStartsWith` is the needle). -/
def seqStartsWith : List Char → List Char → Bool
  | [], _ => true
  | _ :: _, [] => false
  | a :: as, b :: bs => a == b && seqStartsWith as bs

/-- Does the haystack contain the needle as a contiguous subsequence? -/
def seqContains (needle : List Char) : List Char → Bool
  | [] => needle.isEmpty
  | c :: rest => seqStartsWith needle (c :: rest) || seqContains needle rest

/-- Python `needle in hay` on strings. -/
def strContains (hay needle : String) : Bool :=
  seqContains needle.toList hay.toList

/-- `dict.get k` over an association list (first binding wins). -/
def dictGet (fields : List (String × String)) (k : String) : Option String :=
  (fields.find? (fun p => p.fst == k)).map Prod.snd

/-- The nested `group` object some directory responses carry (`g["group"]`). -/
structure GroupInner where
  name : Option String
  id : Option String
deriving DecidableEq

/-- One group record of the directory response (`groups`/`resources` element).
An absent `group` key, and the (behaviourally identical) falsy empty dict, are
both `none`. -/
structure GroupRec where
  name : Option String
  display_name : Option String
  id : Option String
  group : Option GroupInner
deriving DecidableEq

/-- The exact-match pass of `find_access_group_id` on one record: `some r` means the
loop would `return r` here (note `r` itself may be `none` when the record has no id). -/
def matchExact (group_name : String) (g : GroupRec) : Option (Option String) :=
  if g.name = some group_name ∨ g.display_name = some group_name then some g.id
  else
    match g.group with
    | some inner => if inner.name = some group_name then some inner.id else none
    | none => none

/-- `g.get("name") or g.get("display_name") or ""` — the text the substring
fallback searches in. -/
def fallbackText (g : GroupRec) : String :=
  (pyOr (pyOr g.name g.display_name) (some "")).getD ""

/-- The substring-fallback pass of `find_access_group_id` on one record. -/
def matchSubstr (group_name : String) (g : GroupRec) : Option (Option String) :=
  if strContains (fallbackText g) group_name then some g.id else none

/-- `find_access_group_id` (app.py:50-66): first an exact pass over all records
(name, display name, or nested group name equal to the requested name), then a
substring-fallback pass; either pass returns the matching record's id field as-is
(possibly `None`). -/
def find_access_group_id (groups : List GroupRec) (group_name : String) : Option String :=
  match groups.findSome? (matchExact group_name) with
  | some r => r
  | none =>
    match groups.findSome? (matchSubstr group_name) with
    | some r => r
    | none => none

/-- Process configuration read from the environment at startup. -/
structure AppConfig where
  siteToken : Option String
  accountId : String
  resourceGroupId : String
  accessGroupName : String
  roleId : String
deriving DecidableEq

/-- The policy document built by `create_time_limited_policy` (app.py:87-137):
subject = the access group, resource scope = account + resource group, one role,
and a time-based rule `[startSec, endSec]`. -/
structure Policy where
  description : String
  subjectGroupId : String
  roleId : String
  accountId : String
  resourceGroupId : String
  startSec : Int
  endSec : Int
deriving DecidableEq

/-- `create_time_limited_policy` (app.py:87-137): the policy document it posts.
`start = now`, `end = now + days` and the description embeds the email
(`email or 'student'`). -/
def create_time_limited_policy (cfg : AppConfig) (now : Int) (access_group_id : String)
    (resource_group_id : String) (days : Nat) (email : Option String) : Policy :=
  let who := (pyOr email (some "student")).getD "student"
  { description := s!"Temporary access for {who} (expires in {days} days)"
  , subjectGroupId := access_group_id
  , roleId := cfg.roleId
  , accountId := cfg.accountId
  , resourceGroupId := resource_group_id
  , startSec := now
  , endSec := now + (days : Int) * 86400 }

/-- One external HTTPS call performed by a handler, in order. -/
inductive ExtCall where
  | tokenExchange : ExtCall
  | groupLookup : String → ExtCall
  | inviteCall : String → ExtCall
  | policyCreate : ExtCall
  | memberList : ExtCall
  | profileFetch : String → ExtCall
  | memberDelete : String → ExtCall
deriving DecidableEq

/-- The JSON body of a `/invite` request as the handler reads it.  `ttl_days`
models a caller-supplied TTL field: the handler never reads it (app.py reads only
`email`, `first_name`/`firstName`, `last_name`/`lastName`). -/
structure InviteBody where
  email : Option String
  first_name : Option String
  firstName : Option String
  last_name : Option String
  lastName : Option String
  ttl_days : Option Nat
deriving DecidableEq

/-- What the external services would answer during one `/invite` request. -/
structure InviteDeps where
  now : Int
  groups : List GroupRec
  inviteStatus : Nat
  inviteText : String
  policyFails : Bool
deriving DecidableEq

/-- Observable outcome of one `/invite` request: HTTP status, external calls in
order, the policy store afterwards, and the response fields the claims mention. -/
structure InviteResult where
  status : Nat
  calls : List ExtCall
  policies : List Policy
  invite_status : Option Nat
  warning : Bool
deriving DecidableEq

/-- The site-token gate shared by `/invite` and `/cleanup` (app.py:205-208,
251-254): deny when a token is configured and the header is missing, empty, or
different. -/
def gateDenied (cfg : AppConfig) (headerToken : Option String) : Bool :=
  truthyStr cfg.siteToken && (!truthyStr headerToken || headerToken != cfg.siteToken)

/-- The `/invite` handler (app.py:203-247) over a policy store `store`:
site-token gate, email check, token exchange, group lookup, invite call (status
recorded, never checked), then `create_time_limited_policy` with `days=7`; a
policy failure yields 202 with a warning, success yields 200 and appends the
created policy to the store. -/
def invite (cfg : AppConfig) (headerToken : Option String) (body : InviteBody)
    (deps : InviteDeps) (store : List Policy) : InviteResult :=
  if gateDenied cfg headerToken then
    { status := 403, calls := [], policies := store, invite_status := none, warning := false }
  else if ¬ truthyStr body.email then
    { status := 400, calls := [], policies := store, invite_status := none, warning := false }
  else
    let e := body.email.getD ""
    let gid? := find_access_group_id deps.groups cfg.accessGroupName
    if ¬ truthyStr gid? then
      { status := 404
      , calls := [ExtCall.tokenExchange, ExtCall.groupLookup cfg.accessGroupName]
      , policies := store, invite_status := none, warning := false }
    else
      let gid := gid?.getD ""
      let calls := [ExtCall.tokenExchange, ExtCall.groupLookup cfg.accessGroupName,
        ExtCall.inviteCall e, ExtCall.policyCreate]
      if deps.policyFails then
        { status := 202, calls := calls, policies := store
        , invite_status := some deps.inviteStatus, warning := true }
      else
        { status := 200, calls := calls
        , policies := store ++
            [create_time_limited_policy cfg deps.now gid cfg.resourceGroupId 7 (some e)]
        , invite_status := some deps.inviteStatus, warning := false }

/-- Does a policy describe the (group, email) pair: its subject references the
group id and its description mentions the email. -/
def policyMatches (gid email : String) (p : Policy) : Bool :=
  p.subjectGroupId == gid && strContains p.description email

/-- One member's account profile as `parse_user_created_at` reads it: the
top-level string fields, and the optional `resources`/`users` lists of nested
records. -/
structure Profile where
  fields : List (String × String)
  resources : Option (List (List (String × String)))
  users : Option (List (List (String × String)))

/-- The ordered list of recognized enrollment-timestamp field names
(app.py:171,183). -/
def createdKeys : List String :=
  ["added_on", "addedOn", "created", "created_at", "createdAt", "created_on"]

/-- Try each recognized key in order on one record: a truthy value that parses
wins; an unparsable or falsy value falls through to the next key. -/
def tryParseKeys (parseTs : String → Option Int) (fields : List (String × String)) :
    Option Int :=
  createdKeys.findSome? (fun k =>
    match dictGet fields k with
    | some v => if v.isEmpty then none else parseTs v
    | none => none)

/-- `parse_user_created_at` (app.py:167-191): `none` for a missing profile;
otherwise the top-level keys first, then the first element of
`resources or users or []`. -/
def parse_user_created_at (parseTs : String → Option Int) (profile : Option Profile) :
    Option Int :=
  match profile with
  | none => none
  | some p =>
    match tryParseKeys parseTs p.fields with
    | some t => some t
    | none =>
      match pyOrList (pyOrList p.resources p.users) (some []) with
      | some (first :: _) => tryParseKeys parseTs first
      | _ => none

/-- One member record of the group-membership listing, with the alternative id
field names the cleanup loop probes (app.py:265). -/
structure MemberRec where
  iam_id : Option String
  iamId : Option String
  id : Option String
  principal_id : Option String
  user_id : Option String
deriving DecidableEq

/-- `m.get("iam_id") or m.get("iamId") or m.get("id") or m.get("principal_id") or
m.get("user_id")`. -/
def resolveIamId (m : MemberRec) : Option String :=
  pyOr (pyOr (pyOr (pyOr m.iam_id m.iamId) m.id) m.principal_id) m.user_id

/-- Outcome of one `requests.delete` in `delete_user`: an HTTP response (any
status — `delete_user` never raises for status), or a transport error/timeout,
which raises. -/
inductive DeleteRes where
  | http : Nat → String → DeleteRes
  | transportError : DeleteRes
deriving DecidableEq

/-- One entry of the `deleted` list in the `/cleanup` response. -/
structure DelEntry where
  iam_id : String
  delete_status : Nat
  delete_body : String
deriving DecidableEq

/-- What the external services would answer during one `/cleanup` request. -/
structure CleanupDeps where
  now : Int
  groups : List GroupRec
  members : List MemberRec
  profileOf : String → Option Profile
  parseTs : String → Option Int
  deleteOf : String → DeleteRes

/-- Observable outcome of one `/cleanup` request.  `deleted`/`checked` are `none`
when the handler did not produce its JSON report (gate denial, missing group, or
an uncaught exception — modelled as status 500, Flask's error page). -/
structure CleanupResult where
  status : Nat
  calls : List ExtCall
  deleted : Option (List DelEntry)
  checked : Option Nat
deriving DecidableEq

/-- The member loop of `/cleanup` (app.py:264-277): resolve an id (skip if
falsy), fetch the profile, parse the enrollment time (skip if undetermined),
compute `age.days = fdiv (now - created) 86400` and delete when `age.days ≥ 7`,
collecting the delete status; a raising delete aborts the whole handler. -/
def sweep (deps : CleanupDeps) (checkedTotal : Nat) :
    List MemberRec → List ExtCall → List DelEntry → CleanupResult
  | [], calls, deleted =>
    { status := 200, calls := calls, deleted := some deleted, checked := some checkedTotal }
  | m :: rest, calls, deleted =>
    if ¬ truthyStr (resolveIamId m) then sweep deps checkedTotal rest calls deleted
    else
      let i := (resolveIamId m).getD ""
      let calls := calls ++ [ExtCall.profileFetch i]
      match parse_user_created_at deps.parseTs (deps.profileOf i) with
      | none => sweep deps checkedTotal rest calls deleted
      | some created =>
        if 7 ≤ Int.fdiv (deps.now - created) 86400 then
          let calls := calls ++ [ExtCall.memberDelete i]
          match deps.deleteOf i with
          | DeleteRes.transportError =>
            { status := 500, calls := calls, deleted := none, checked := none }
          | DeleteRes.http st bd =>
            sweep deps checkedTotal rest calls
              (deleted ++ [{ iam_id := i, delete_status := st, delete_body := bd }])
        else sweep deps checkedTotal rest calls deleted

/-- The `/cleanup` handler (app.py:249-279): site-token gate, token exchange,
group lookup, member listing, then the member loop; on completion it reports
`deleted` and `checked = len(members)`. -/
def cleanup (cfg : AppConfig) (headerToken : Option String) (deps : CleanupDeps) :
    CleanupResult :=
  if gateDenied cfg headerToken then
    { status := 403, calls := [], deleted := none, checked := none }
  else
    let gid? := find_access_group_id deps.groups cfg.accessGroupName
    if ¬ truthyStr gid? then
      { status := 404
      , calls := [ExtCall.tokenExchange, ExtCall.groupLookup cfg.accessGroupName]
      , deleted := none, checked := none }
    else
      sweep deps deps.members.length deps.members
        [ExtCall.tokenExchange, ExtCall.groupLookup cfg.accessGroupName, ExtCall.memberList] []

/-- Modelled from the spec: the repository source under `src/` contains no rate
limiter; §4.1 of the spec describes a sliding-window admission check over the per-key
list of admission timestamps.  On each call: prune timestamps older than
`now - window`; if the remaining count is at least the limit, deny without
recording; otherwise record `now` and allow.  Returns the decision and the
per-key state afterwards. -/
def admitRequest (limit : Nat) (window now : Int) (entries : List Int) : Bool × List Int :=
  let pruned := entries.filter (fun t => decide (now - window ≤ t))
  if limit ≤ pruned.length then (false, pruned)
  else (true, pruned ++ [now])

/-! Concrete scenarios used by counterexamples and witnesses. -/

/-- A configuration with no site token (the gate is open). -/
def cfgOpen : AppConfig :=
  { siteToken := none, accountId := "acct1", resourceGroupId := "rg1"
  , accessGroupName := "QZD35G-student-access", roleId := "crn-role-viewer" }

/-- A configuration with a site token configured. -/
def cfgTok : AppConfig :=
  { siteToken := some "sek", accountId := "acct1", resourceGroupId := "rg1"
  , accessGroupName := "QZD35G-student-access", roleId := "crn-role-viewer" }

/-- A directory response holding exactly the configured group. -/
def groupsOne : List GroupRec :=
  [{ name := some "QZD35G-student-access", display_name := none
   , id := some "g1", group := none }]

/-- A directory response with no exact match for "X" but a substring match. -/
def groupsSub : List GroupRec :=
  [{ name := some "AXB", display_name := none, id := some "g9", group := none }]

/-- An `/invite` body for `a@b.com` whose caller supplies `ttl_days = 3`. -/
def bodyA : InviteBody :=
  { email := some "a@b.com", first_name := none, firstName := none
  , last_name := none, lastName := none, ttl_days := some 3 }

/-- A first grant request: invite accepted (202), policy creation succeeds. -/
def depsOkA : InviteDeps :=
  { now := 1000, groups := groupsOne, inviteStatus := 202, inviteText := ""
  , policyFails := false }

/-- A later identical grant request (different clock), policy creation succeeds. -/
def depsOkB : InviteDeps :=
  { now := 2000, groups := groupsOne, inviteStatus := 202, inviteText := ""
  , policyFails := false }

/-- A grant request whose invite call answers 500 but whose policy call works. -/
def depsBadInvite : InviteDeps :=
  { now := 1000, groups := groupsOne, inviteStatus := 500, inviteText := "err"
  , policyFails := false }

/-- A grant request whose invite call answers 201 and whose policy call fails. -/
def depsPolicyFail : InviteDeps :=
  { now := 1000, groups := groupsOne, inviteStatus := 201, inviteText := ""
  , policyFails := true }

/-- A one-member cleanup environment whose single member `u1` was enrolled at
time `created` (the profile field `added_on` parses to it); deletions answer 200. -/
def oneMemberDeps (now created : Int) : CleanupDeps :=
  { now := now
  , groups := groupsOne
  , members := [{ iam_id := some "u1", iamId := none, id := none
                , principal_id := none, user_id := none }]
  , profileOf := fun _ => some { fields := [("added_on", "T1")], resources := none, users := none }
  , parseTs := fun s => if s = "T1" then some created else none
  , deleteOf := fun _ => DeleteRes.http 200 "ok" }

/-- A one-member cleanup environment whose member's profile exposes none of the
recognized timestamp fields. -/
def ambMemberDeps : CleanupDeps :=
  { now := 10 * 86400
  , groups := groupsOne
  , members := [{ iam_id := some "u1", iamId := none, id := none
                , principal_id := none, user_id := none }]
  , profileOf := fun _ => some { fields := [("email", "x@y.z")], resources := none, users := none }
  , parseTs := fun _ => none
  , deleteOf := fun _ => DeleteRes.http 200 "ok" }

/-- A two-member cleanup environment: both members expired, the deletion of `u1`
raises a transport error, the deletion of `u2` would answer 200. -/
def twoMemberDeps : CleanupDeps :=
  { now := 20 * 86400
  , groups := groupsOne
  , members := [{ iam_id := some "u1", iamId := none, id := none
                , principal_id := none, user_id := none }
               ,{ iam_id := some "u2", iamId := none, id := none
                , principal_id := none, user_id := none }]
  , profileOf := fun _ => some { fields := [("created_at", "T0")], resources := none, users := none }
  , parseTs := fun _ => some 0
  , deleteOf := fun i => if i = "u1" then DeleteRes.transportError else DeleteRes.http 200 "ok" }

/-- A two-member cleanup environment where every deletion answers over HTTP
(the first with a 500 status), so no call raises. -/
def twoMemberHttpDeps : CleanupDeps :=
  { now := 20 * 86400
  , groups := groupsOne
  , members := [{ iam_id := some "u1", iamId := none, id := none
                , principal_id := none, user_id := none }
               ,{ iam_id := some "u2", iamId := none, id := none
                , principal_id := none, user_id := none }]
  , profileOf := fun _ => some { fields := [("created_at", "T0")], resources := none, users := none }
  , parseTs := fun _ => some 0
  , deleteOf := fun i => if i = "u1" then DeleteRes.http 500 "boom" else DeleteRes.http 200 "ok" }

/-- An exact-match hit of the group lookup on one record: the requested name
equals the record's name, display name, or nested group name. -/
def exactHit (n : String) (g : GroupRec) : Prop :=
  g.name = some n ∨ g.display_name = some n ∨
    (∃ inner, g.group = some inner ∧ inner.name = some n)

/-- A substring-fallback hit of the group lookup on one record. -/
def substrHit (n : String) (g : GroupRec) : Prop :=
  strContains (fallbackText g) n = true

/-- Every id field a lookup hit could return is present on this record. -/
def idsPresent (g : GroupRec) : Bool :=
  g.id.isSome && (match g.group with
    | some inner => inner.id.isSome
    | none => true)

/-- C1 counterexample: two identical grant requests for `a@b.com` in group `g1`
(both policy calls succeed) leave two live policies describing the (g1, a@b.com)
pair, not exactly one — the handler performs no duplicate scan. -/
theorem invite_duplicate_policies_cx :
    ((invite cfgOpen none bodyA depsOkB
        (invite cfgOpen none bodyA depsOkA []).policies).policies.countP
      (policyMatches "g1" "a@b.com")) = 2 := by decide

/-- C2 counterexample: with the invite call answering 500 and the policy call
succeeding, the handler still performs the policy-creation call and returns 200 —
it neither returns a failed outcome nor skips the policy step. -/
theorem invite_no_short_circuit_cx :
    (invite cfgOpen none bodyA depsBadInvite []).status = 200 ∧
    (invite cfgOpen none bodyA depsBadInvite []).invite_status = some 500 ∧
    ExtCall.policyCreate ∈ (invite cfgOpen none bodyA depsBadInvite []).calls ∧
    (invite cfgOpen none bodyA depsBadInvite []).policies ≠ [] := by decide

/-- C3 counterexample: a directory response with a single group "AXB" contains no
exact match for the requested name "X", yet the lookup returns its id `g9` via
the substring fallback instead of NotFound. -/
theorem find_group_substring_cx :
    find_access_group_id groupsSub "X" = some "g9" ∧
    ∀ g ∈ groupsSub, g.name ≠ some "X" ∧ g.display_name ≠ some "X" ∧ g.group = none := by
  decide
/-- C8 counterexample: the caller supplies `ttl_days = 3`, yet the created
policy's validity window ends at `now + 7` days (604800 s), not `now + 3` days —
the handler hardcodes `days=7` and never reads a caller TTL. -/
theorem invite_fixed_ttl_cx :
    bodyA.ttl_days = some 3 ∧
    (invite cfgOpen none bodyA depsOkA []).policies.map Policy.endSec = [1000 + 7 * 86400] ∧
    (invite cfgOpen none bodyA depsOkA []).policies.map Policy.endSec ≠ [1000 + 3 * 86400] := by
  decide

/-- C9 counterexample: with two expired members and the deletion of the first
raising a transport error, the sweep aborts (status 500, no report): the second
member is never fetched nor deleted, contradicting failure isolation. -/
theorem cleanup_transport_abort_cx :
    (cleanup cfgOpen none twoMemberDeps).status = 500 ∧
    (cleanup cfgOpen none twoMemberDeps).deleted = none ∧
    (cleanup cfgOpen none twoMemberDeps).checked = none ∧
    ExtCall.memberDelete "u1" ∈ (cleanup cfgOpen none twoMemberDeps).calls ∧
    ExtCall.memberDelete "u2" ∉ (cleanup cfgOpen none twoMemberDeps).calls ∧
    ExtCall.profileFetch "u2" ∉ (cleanup cfgOpen none twoMemberDeps).calls := by decide

/-- C10: when a site token is configured (truthy), every `/invite` or `/cleanup`
request whose X-SITE-TOKEN header differs from it (in particular a missing
header) is answered 403 with no external call performed and no policy-store
change. -/
theorem site_token_gating (cfg : AppConfig) (ht : Option String) (body : InviteBody)
    (ideps : InviteDeps) (store : List Policy) (cdeps : CleanupDeps)
    (hcfg : truthyStr cfg.siteToken = true) (hht : ht ≠ cfg.siteToken) :
    invite cfg ht body ideps store =
      { status := 403, calls := [], policies := store
      , invite_status := none, warning := false } ∧
    cleanup cfg ht cdeps =
      { status := 403, calls := [], deleted := none, checked := none } := by
  have hden : gateDenied cfg ht = true := by
    simp [gateDenied, hcfg, bne_iff_ne, hht]
  constructor <;> simp [invite, cleanup, hden]

/-- C7: when the gate and checks pass, the invite call answers 2xx and the policy
call fails, the handler returns the partial outcome (202 with a warning), leaves
the policy store unchanged, and performs no member deletion — membership remains. -/
theorem invite_partial_outcome (cfg : AppConfig) (ht : Option String) (body : InviteBody)
    (deps : InviteDeps) (store : List Policy)
    (hgate : gateDenied cfg ht = false)
    (hemail : truthyStr body.email = true)
    (hgid : truthyStr (find_access_group_id deps.groups cfg.accessGroupName) = true)
    (h2xx : 200 ≤ deps.inviteStatus ∧ deps.inviteStatus < 300)
    (hfail : deps.policyFails = true) :
    (invite cfg ht body deps store).status = 202 ∧
    (invite cfg ht body deps store).warning = true ∧
    (invite cfg ht body deps store).policies = store ∧
    ∀ i, ExtCall.memberDelete i ∉ (invite cfg ht body deps store).calls := by
  simp [invite, hgate, hemail, hgid, hfail]

/-- C2 (amended): the handler records the invite status in its response but never
checks it — the policy step is attempted for every request passing the gate,
email, and group checks, and the final status (200 or 202) depends only on the
policy step. -/
theorem invite_status_not_checked (cfg : AppConfig) (ht : Option String) (body : InviteBody)
    (deps : InviteDeps) (store : List Policy)
    (hgate : gateDenied cfg ht = false)
    (hemail : truthyStr body.email = true)
    (hgid : truthyStr (find_access_group_id deps.groups cfg.accessGroupName) = true) :
    ExtCall.policyCreate ∈ (invite cfg ht body deps store).calls ∧
    (invite cfg ht body deps store).status = (if deps.policyFails = true then 202 else 200) ∧
    (invite cfg ht body deps store).invite_status = some deps.inviteStatus := by
  cases hp : deps.policyFails <;> simp [invite, hgate, hemail, hgid, hp]

/-- C1 (amended): no duplicate-policy scan exists — every request that passes the
gate, email, and group checks and whose policy call succeeds appends one freshly
created policy to the store, regardless of any existing policy for the same
(group, email) pair. -/
theorem invite_appends_policy (cfg : AppConfig) (ht : Option String) (body : InviteBody)
    (deps : InviteDeps) (store : List Policy)
    (hgate : gateDenied cfg ht = false)
    (hemail : truthyStr body.email = true)
    (hgid : truthyStr (find_access_group_id deps.groups cfg.accessGroupName) = true)
    (hok : deps.policyFails = false) :
    (invite cfg ht body deps store).policies =
      store ++ [create_time_limited_policy cfg deps.now
        ((find_access_group_id deps.groups cfg.accessGroupName).getD "")
        cfg.resourceGroupId 7 (some (body.email.getD ""))] := by
  simp [invite, hgate, hemail, hgid, hok]

/-- C8 (amended): the created policy's validity window is always
`[now, now + 7 days]` — the `days` parameter exists but the handler passes the
constant 7 and never reads a caller-supplied TTL, so two requests differing only
in the body's `ttl_days` field behave identically. -/
theorem invite_window_fixed (cfg : AppConfig) (ht : Option String) (body : InviteBody)
    (deps : InviteDeps) (store : List Policy) (t : Option Nat)
    (hgate : gateDenied cfg ht = false)
    (hemail : truthyStr body.email = true)
    (hgid : truthyStr (find_access_group_id deps.groups cfg.accessGroupName) = true)
    (hok : deps.policyFails = false) :
    (∃ p, (invite cfg ht body deps store).policies = store ++ [p] ∧
      p.startSec = deps.now ∧ p.endSec = deps.now + 7 * 86400) ∧
    invite cfg ht { body with ttl_days := t } deps store =
      invite cfg ht body deps store := by
  constructor
  · refine ⟨create_time_limited_policy cfg deps.now
        ((find_access_group_id deps.groups cfg.accessGroupName).getD "")
        cfg.resourceGroupId 7 (some (body.email.getD "")), ?_, rfl, ?_⟩
    · simp [invite, hgate, hemail, hgid, hok]
    · norm_num [create_time_limited_policy]
  · rfl

/-- C4: sliding-window rate limiting (modelled from the spec, see `admitRequest`): with
`limit` admissions retained inside the trailing window, the next request is
denied and not recorded; once the earliest admission has aged out of the window,
one more request is admitted (and recorded). -/
theorem admit_sliding_window (limit : Nat) (window : Int) (now : Int) (st : List Int)
    (nowL t0 : Int) (rest : List Int)
    (hlen : st.length = limit) (hin : ∀ t ∈ st, now - window ≤ t)
    (hst : st = t0 :: rest) (hold : t0 < nowL - window)
    (hrest : ∀ t ∈ rest, nowL - window ≤ t) :
    admitRequest limit window now st = (false, st) ∧
    admitRequest limit window nowL st = (true, rest ++ [nowL]) := by
  subst hst
  constructor
  · have hfil : (t0 :: rest).filter (fun t => decide (now - window ≤ t)) = t0 :: rest :=
      List.filter_eq_self.mpr (fun t htm => by simpa using hin t htm)
    simp only [admitRequest, hfil]
    rw [if_pos (le_of_eq hlen.symm)]
  · have hfil : (t0 :: rest).filter (fun t => decide (nowL - window ≤ t)) = rest := by
      have h0 : decide (nowL - window ≤ t0) = false := by
        simp [not_le.mpr hold]
      have hrest2 : rest.filter (fun t => decide (nowL - window ≤ t)) = rest :=
        List.filter_eq_self.mpr (fun t htm => by simpa using hrest t htm)
      rw [List.filter_cons, h0]
      simpa using hrest2
    have hlt : rest.length < limit := by
      simp at hlen; omega
    simp only [admitRequest, hfil]
    rw [if_neg (Nat.not_le.mpr hlt)]

/-- Witness for C10 at a concrete input: token "sek" configured, header "wrong". -/
theorem site_token_gating_witness :
    (truthyStr cfgTok.siteToken = true ∧ (some "wrong" : Option String) ≠ cfgTok.siteToken) ∧
    (invite cfgTok (some "wrong") bodyA depsOkA [] =
      { status := 403, calls := [], policies := []
      , invite_status := none, warning := false } ∧
     cleanup cfgTok (some "wrong") ambMemberDeps =
      { status := 403, calls := [], deleted := none, checked := none }) :=
  ⟨⟨by decide, by decide⟩,
   site_token_gating cfgTok (some "wrong") bodyA depsOkA [] ambMemberDeps
     (by decide) (by decide)⟩

/-- Witness for C7 at a concrete input: invite answers 201, policy call fails. -/
theorem invite_partial_outcome_witness :
    (gateDenied cfgOpen none = false ∧ truthyStr bodyA.email = true ∧
     truthyStr (find_access_group_id depsPolicyFail.groups cfgOpen.accessGroupName) = true ∧
     (200 ≤ depsPolicyFail.inviteStatus ∧ depsPolicyFail.inviteStatus < 300) ∧
     depsPolicyFail.policyFails = true) ∧
    ((invite cfgOpen none bodyA depsPolicyFail []).status = 202 ∧
     (invite cfgOpen none bodyA depsPolicyFail []).warning = true ∧
     (invite cfgOpen none bodyA depsPolicyFail []).policies = [] ∧
     ∀ i, ExtCall.memberDelete i ∉ (invite cfgOpen none bodyA depsPolicyFail []).calls) :=
  ⟨⟨by decide, by decide, by decide, by decide, by decide⟩,
   invite_partial_outcome cfgOpen none bodyA depsPolicyFail []
     (by decide) (by decide) (by decide) (by decide) (by decide)⟩

/-- Witness for the amended C2 at a concrete input: invite answers 500. -/
theorem invite_status_not_checked_witness :
    (gateDenied cfgOpen none = false ∧ truthyStr bodyA.email = true ∧
     truthyStr (find_access_group_id depsBadInvite.groups cfgOpen.accessGroupName) = true) ∧
    (ExtCall.policyCreate ∈ (invite cfgOpen none bodyA depsBadInvite []).calls ∧
     (invite cfgOpen none bodyA depsBadInvite []).status =
       (if depsBadInvite.policyFails = true then 202 else 200) ∧
     (invite cfgOpen none bodyA depsBadInvite []).invite_status =
       some depsBadInvite.inviteStatus) :=
  ⟨⟨by decide, by decide, by decide⟩,
   invite_status_not_checked cfgOpen none bodyA depsBadInvite []
     (by decide) (by decide) (by decide)⟩

/-- Witness for the amended C1 at a concrete input. -/
theorem invite_appends_policy_witness :
    (gateDenied cfgOpen none = false ∧ truthyStr bodyA.email = true ∧
     truthyStr (find_access_group_id depsOkA.groups cfgOpen.accessGroupName) = true ∧
     depsOkA.policyFails = false) ∧
    (invite cfgOpen none bodyA depsOkA []).policies =
      [] ++ [create_time_limited_policy cfgOpen depsOkA.now
        ((find_access_group_id depsOkA.groups cfgOpen.accessGroupName).getD "")
        cfgOpen.resourceGroupId 7 (some (bodyA.email.getD ""))] :=
  ⟨⟨by decide, by decide, by decide, by decide⟩,
   invite_appends_policy cfgOpen none bodyA depsOkA []
     (by decide) (by decide) (by decide) (by decide)⟩

/-- Witness for the amended C8 at a concrete input (caller field `ttl_days = 42`). -/
theorem invite_window_fixed_witness :
    (gateDenied cfgOpen none = false ∧ truthyStr bodyA.email = true ∧
     truthyStr (find_access_group_id depsOkA.groups cfgOpen.accessGroupName) = true ∧
     depsOkA.policyFails = false) ∧
    ((∃ p, (invite cfgOpen none bodyA depsOkA []).policies = [] ++ [p] ∧
       p.startSec = depsOkA.now ∧ p.endSec = depsOkA.now + 7 * 86400) ∧
     invite cfgOpen none { bodyA with ttl_days := some 42 } depsOkA [] =
       invite cfgOpen none bodyA depsOkA []) :=
  ⟨⟨by decide, by decide, by decide, by decide⟩,
   invite_window_fixed cfgOpen none bodyA depsOkA [] (some 42)
     (by decide) (by decide) (by decide) (by decide)⟩

/-- Witness for C4 at a concrete input: limit 2, window 10, admissions at 0 and 5;
a third request at time 7 is denied unrecorded; at time 11 the admission at 0 has
aged out and the request is admitted. -/
theorem admit_sliding_window_witness :
    (([0, 5] : List Int).length = 2 ∧ (∀ t ∈ ([0, 5] : List Int), (7 : Int) - 10 ≤ t) ∧
     ([0, 5] : List Int) = 0 :: [5] ∧ (0 : Int) < 11 - 10 ∧
     (∀ t ∈ ([5] : List Int), (11 : Int) - 10 ≤ t)) ∧
    (admitRequest 2 10 7 [0, 5] = (false, [0, 5]) ∧
     admitRequest 2 10 11 [0, 5] = (true, [5, 11])) :=
  ⟨⟨by decide, by decide, by decide, by decide, by decide⟩,
   admit_sliding_window 2 10 7 [0, 5] 11 0 [5]
     (by decide) (by decide) (by decide) (by decide) (by decide)⟩

/-- The exact pass fires on a record exactly when the record exact-hits the name. -/
theorem matchExact_eq_none_iff (n : String) (g : GroupRec) :
    matchExact n g = none ↔ ¬ exactHit n g := by
  unfold matchExact exactHit
  by_cases h1 : g.name = some n ∨ g.display_name = some n
  · simp only [if_pos h1]
    simp
    tauto
  · rw [if_neg h1]
    cases hg : g.group with
    | none => simp [hg]; tauto
    | some inner =>
      by_cases h2 : inner.name = some n <;> simp [hg, h2] <;> tauto

/-- The substring pass fires on a record exactly when the record substring-hits
the name. -/
theorem matchSubstr_eq_none_iff (n : String) (g : GroupRec) :
    matchSubstr n g = none ↔ ¬ substrHit n g := by
  unfold matchSubstr substrHit
  by_cases h : strContains (fallbackText g) n = true <;> simp [h]

/-- If the exact pass fires with payload `r` on a record with ids present, `r` is
an id. -/
theorem matchExact_payload_isSome (n : String) (g : GroupRec) (r : Option String)
    (hid : idsPresent g = true) (h : matchExact n g = some r) : r.isSome = true := by
  unfold matchExact at h
  by_cases h1 : g.name = some n ∨ g.display_name = some n
  · rw [if_pos h1] at h
    cases h
    exact (Bool.and_elim_left hid)
  · rw [if_neg h1] at h
    cases hg : g.group with
    | none => rw [hg] at h; cases h
    | some inner =>
      rw [hg] at h
      by_cases h2 : inner.name = some n
      · have h3 : inner.id = r := by simpa [h2] using h
        have h4 : inner.id.isSome = true := by
          have h5 : g.id.isSome = true ∧ inner.id.isSome = true := by
            simpa [idsPresent, hg] using hid
          exact h5.2
        rw [← h3]
        exact h4
      · simp [h2] at h

/-- If the substring pass fires with payload `r` on a record with ids present,
`r` is an id. -/
theorem matchSubstr_payload_isSome (n : String) (g : GroupRec) (r : Option String)
    (hid : idsPresent g = true) (h : matchSubstr n g = some r) : r.isSome = true := by
  unfold matchSubstr at h
  by_cases hc : strContains (fallbackText g) n = true
  · rw [if_pos hc] at h
    cases h
    exact (Bool.and_elim_left hid)
  · rw [if_neg hc] at h; cases h

/-- C3 (amended): over a directory response whose records carry ids, the lookup
returns a group id exactly when some record's name or display name (or nested
group name) equals the requested name, OR some record's fallback text contains it
as a substring; NotFound only when neither pass matches.  (The original claim's
"no substring-based fallback" fails, see the counterexample.) -/
theorem find_group_characterization (gs : List GroupRec) (n : String)
    (hids : ∀ g ∈ gs, idsPresent g = true) :
    (find_access_group_id gs n).isSome = true ↔
      ∃ g ∈ gs, exactHit n g ∨ substrHit n g := by
  unfold find_access_group_id
  cases h1 : gs.findSome? (matchExact n) with
  | some r =>
    obtain ⟨g, hg, hmg⟩ := List.exists_of_findSome?_eq_some h1
    have hsome : r.isSome = true := matchExact_payload_isSome n g r (hids g hg) hmg
    have hhit : exactHit n g := by
      by_contra hno
      rw [(matchExact_eq_none_iff n g).mpr hno] at hmg
      cases hmg
    simp only [hsome, true_iff]
    exact ⟨g, hg, Or.inl hhit⟩
  | none =>
    have hnoexact : ∀ g ∈ gs, ¬ exactHit n g := by
      intro g hg
      exact (matchExact_eq_none_iff n g).mp (List.findSome?_eq_none_iff.mp h1 g hg)
    cases h2 : gs.findSome? (matchSubstr n) with
    | some r =>
      obtain ⟨g, hg, hmg⟩ := List.exists_of_findSome?_eq_some h2
      have hsome : r.isSome = true := matchSubstr_payload_isSome n g r (hids g hg) hmg
      have hhit : substrHit n g := by
        by_contra hno
        rw [(matchSubstr_eq_none_iff n g).mpr hno] at hmg
        cases hmg
      simp only [hsome, true_iff]
      exact ⟨g, hg, Or.inr hhit⟩
    | none =>
      have hnosub : ∀ g ∈ gs, ¬ substrHit n g := by
        intro g hg
        exact (matchSubstr_eq_none_iff n g).mp (List.findSome?_eq_none_iff.mp h2 g hg)
      simp only [Option.isSome_none, Bool.false_eq_true, false_iff]
      rintro ⟨g, hg, hor⟩
      cases hor with
      | inl h => exact hnoexact g hg h
      | inr h => exact hnosub g hg h

/-- Witness for the amended C3 at a concrete input: the substring-matching
directory response. -/
theorem find_group_characterization_witness :
    (∀ g ∈ groupsSub, idsPresent g = true) ∧
    ((find_access_group_id groupsSub "X").isSome = true ↔
      ∃ g ∈ groupsSub, exactHit "X" g ∨ substrHit "X" g) :=
  ⟨by decide, find_group_characterization groupsSub "X" (by decide)⟩

/-- Evaluating the one-member cleanup environment: everything is concrete except
the expiry comparison. -/
theorem cleanup_oneMember_deleted (now created : Int) :
    (cleanup cfgOpen none (oneMemberDeps now created)).deleted =
      (if 7 ≤ Int.fdiv (now - created) 86400
       then some [{ iam_id := "u1", delete_status := 200, delete_body := "ok" }]
       else some []) := by
  by_cases h : 7 ≤ Int.fdiv (now - created) 86400 <;>
    simp +decide [cleanup, sweep, oneMemberDeps, gateDenied, cfgOpen, truthyStr,
      find_access_group_id, matchExact, groupsOne, parse_user_created_at, tryParseKeys,
      createdKeys, dictGet, resolveIamId, pyOr, pyOrList, h]

/-- C5: expiry boundary with floor semantics — in the 7-day sweep, a member
enrolled exactly 7 days minus one second before `now` is not deleted, while a
member enrolled exactly 7 days (plus any further `k` seconds) before `now` is
deleted. -/
theorem cleanup_expiry_boundary (now : Int) (k : Nat) :
    (cleanup cfgOpen none (oneMemberDeps now (now - (7 * 86400 - 1)))).deleted =
      some [] ∧
    (cleanup cfgOpen none (oneMemberDeps now (now - 7 * 86400 - k))).deleted =
      some [{ iam_id := "u1", delete_status := 200, delete_body := "ok" }] := by
  constructor
  · rw [cleanup_oneMember_deleted]
    rw [show now - (now - (7 * 86400 - 1)) = 604799 by ring]
    rw [if_neg (by decide)]
  · rw [cleanup_oneMember_deleted]
    rw [show now - (now - 7 * 86400 - (k : Int)) = 604800 + (k : Int) by ring]
    rw [if_pos ?_]
    rw [Int.fdiv_eq_ediv]
    · omega
    · omega

/-- Soundness of the member loop's report: when the loop completes, `checked` is
the preset total, every reported deletion entry is either inherited from the
accumulator or belongs to a member whose enrollment time was determined, and
every member-deletion call either was already in the call accumulator or targets
an id whose enrollment time was determined. -/
theorem sweep_report_sound (deps : CleanupDeps) (ct : Nat) (ms : List MemberRec) :
    ∀ (calls0 : List ExtCall) (del0 dl : List DelEntry),
      (sweep deps ct ms calls0 del0).deleted = some dl →
      ((sweep deps ct ms calls0 del0).checked = some ct ∧
       (∀ e ∈ dl, e ∈ del0 ∨
         (parse_user_created_at deps.parseTs (deps.profileOf e.iam_id)).isSome = true) ∧
       (∀ i, ExtCall.memberDelete i ∈ (sweep deps ct ms calls0 del0).calls →
         ExtCall.memberDelete i ∈ calls0 ∨
         (parse_user_created_at deps.parseTs (deps.profileOf i)).isSome = true)) := by
  induction ms with
  | nil =>
    intro calls0 del0 dl h
    simp only [sweep] at h ⊢
    cases h
    exact ⟨by simp, fun e he => Or.inl he, fun i hi => Or.inl hi⟩
  | cons m rest ih =>
    intro calls0 del0 dl h
    cases hid : truthyStr (resolveIamId m) with
    | false =>
      simp only [sweep, hid, Bool.false_eq_true, not_false_eq_true, if_pos] at h ⊢
      exact ih calls0 del0 dl h
    | true =>
      simp only [sweep, hid, not_true_eq_false, if_false] at h ⊢
      cases hparse : parse_user_created_at deps.parseTs
          (deps.profileOf ((resolveIamId m).getD "")) with
      | none =>
        simp only [hparse] at h ⊢
        obtain ⟨hc, hdl, hcalls⟩ := ih _ _ dl h
        refine ⟨hc, hdl, fun i hi => ?_⟩
        rcases hcalls i hi with hin | hs
        · rcases List.mem_append.mp hin with hin0 | hin1
          · exact Or.inl hin0
          · simp at hin1
        · exact Or.inr hs
      | some created =>
        simp only [hparse] at h ⊢
        by_cases hexp : 7 ≤ Int.fdiv (deps.now - created) 86400
        · simp only [if_pos hexp] at h ⊢
          cases hdel : deps.deleteOf ((resolveIamId m).getD "") with
          | transportError =>
            simp only [hdel] at h
            cases h
          | http st bd =>
            simp only [hdel] at h ⊢
            obtain ⟨hc, hdl, hcalls⟩ := ih _ _ dl h
            refine ⟨hc, fun e he => ?_, fun i hi => ?_⟩
            · rcases hdl e he with hin | hs
              · rcases List.mem_append.mp hin with hin0 | hin1
                · exact Or.inl hin0
                · refine Or.inr ?_
                  have he1 : e = { iam_id := (resolveIamId m).getD ""
                                 , delete_status := st, delete_body := bd } := by
                    simpa using hin1
                  rw [he1]
                  simp [hparse]
              · exact Or.inr hs
            · rcases hcalls i hi with hin | hs
              · rcases List.mem_append.mp hin with hin2 | hin3
                · rcases List.mem_append.mp hin2 with hin0 | hin1
                  · exact Or.inl hin0
                  · simp at hin1
                · refine Or.inr ?_
                  have hi2 : i = (resolveIamId m).getD "" := by
                    simpa using hin3
                  rw [hi2, hparse]
                  rfl
              · exact Or.inr hs
        · simp only [if_neg hexp] at h ⊢
          obtain ⟨hc, hdl, hcalls⟩ := ih _ _ dl h
          refine ⟨hc, hdl, fun i hi => ?_⟩
          rcases hcalls i hi with hin | hs
          · rcases List.mem_append.mp hin with hin0 | hin1
            · exact Or.inl hin0
            · simp at hin1
          · exact Or.inr hs

/-- C6: ambiguous-data safety — whenever the sweep completes and reports, the
`checked` count covers every listed member, every entry of `deleted` belongs to a
member whose enrollment time was determined (so a member with no recognized,
parsable timestamp field never appears there), and no member-deletion call is
issued for an id whose enrollment time could not be determined. -/
theorem cleanup_ambiguous_safe (cfg : AppConfig) (ht : Option String) (deps : CleanupDeps)
    (dl : List DelEntry) (h : (cleanup cfg ht deps).deleted = some dl) :
    (cleanup cfg ht deps).checked = some deps.members.length ∧
    (∀ e ∈ dl,
      (parse_user_created_at deps.parseTs (deps.profileOf e.iam_id)).isSome = true) ∧
    (∀ i, ExtCall.memberDelete i ∈ (cleanup cfg ht deps).calls →
      (parse_user_created_at deps.parseTs (deps.profileOf i)).isSome = true) := by
  by_cases hgate : gateDenied cfg ht = true
  · simp [cleanup, hgate] at h
  · rw [Bool.not_eq_true] at hgate
    by_cases hgid : truthyStr (find_access_group_id deps.groups cfg.accessGroupName) = true
    · have hred : cleanup cfg ht deps =
          sweep deps deps.members.length deps.members
            [ExtCall.tokenExchange, ExtCall.groupLookup cfg.accessGroupName,
             ExtCall.memberList] [] := by
        simp [cleanup, hgate, hgid]
      rw [hred] at h ⊢
      obtain ⟨hc, hdl, hcalls⟩ := sweep_report_sound deps deps.members.length deps.members
        [ExtCall.tokenExchange, ExtCall.groupLookup cfg.accessGroupName,
         ExtCall.memberList] [] dl h
      refine ⟨hc, fun e he => ?_, fun i hi => ?_⟩
      · rcases hdl e he with hin | hs
        · simp at hin
        · exact hs
      · rcases hcalls i hi with hin | hs
        · simp at hin
        · exact hs
    · simp [cleanup, hgate, hgid] at h

/-- Witness for C6 at a concrete input: the single member's profile exposes no
recognized timestamp field, the sweep completes with `checked = 1` and deletes
nothing. -/
theorem cleanup_ambiguous_safe_witness :
    ((cleanup cfgOpen none ambMemberDeps).deleted = some []) ∧
    ((cleanup cfgOpen none ambMemberDeps).checked = some ambMemberDeps.members.length ∧
     (∀ e ∈ ([] : List DelEntry),
       (parse_user_created_at ambMemberDeps.parseTs
         (ambMemberDeps.profileOf e.iam_id)).isSome = true) ∧
     (∀ i, ExtCall.memberDelete i ∈ (cleanup cfgOpen none ambMemberDeps).calls →
       (parse_user_created_at ambMemberDeps.parseTs
         (ambMemberDeps.profileOf i)).isSome = true)) :=
  ⟨by decide, cleanup_ambiguous_safe cfgOpen none ambMemberDeps [] (by decide)⟩

/-- When no deletion raises, the member loop always runs to completion and
reports. -/
theorem sweep_completes (deps : CleanupDeps) (ct : Nat)
    (hnr : ∀ i, deps.deleteOf i ≠ DeleteRes.transportError) (ms : List MemberRec) :
    ∀ (calls0 : List ExtCall) (del0 : List DelEntry),
      (sweep deps ct ms calls0 del0).status = 200 ∧
      ((sweep deps ct ms calls0 del0).deleted).isSome = true ∧
      (sweep deps ct ms calls0 del0).checked = some ct := by
  induction ms with
  | nil =>
    intro calls0 del0
    simp [sweep]
  | cons m rest ih =>
    intro calls0 del0
    cases hid : truthyStr (resolveIamId m) with
    | false =>
      simp only [sweep, hid, Bool.false_eq_true, not_false_eq_true, if_pos]
      exact ih calls0 del0
    | true =>
      simp only [sweep, hid, not_true_eq_false, if_false]
      cases hparse : parse_user_created_at deps.parseTs
          (deps.profileOf ((resolveIamId m).getD "")) with
      | none =>
        simp only [hparse]
        exact ih _ _
      | some created =>
        simp only [hparse]
        by_cases hexp : 7 ≤ Int.fdiv (deps.now - created) 86400
        · simp only [if_pos hexp]
          cases hdel : deps.deleteOf ((resolveIamId m).getD "") with
          | transportError => exact absurd hdel (hnr _)
          | http st bd =>
            simp only [hdel]
            exact ih _ _
        · simp only [if_neg hexp]
          exact ih _ _

/-- When no deletion raises, the member loop collects a report entry for every
member it deletes: the accumulated entries persist into the final report, and
every listed member whose id resolves (truthy), whose enrollment time is
determined, and whose age meets the threshold contributes an entry carrying
exactly the HTTP status and body its deletion answered with. -/
theorem sweep_collects (deps : CleanupDeps) (ct : Nat)
    (hnr : ∀ i, deps.deleteOf i ≠ DeleteRes.transportError) (ms : List MemberRec) :
    ∀ (calls0 : List ExtCall) (del0 : List DelEntry),
      ∃ dl, (sweep deps ct ms calls0 del0).deleted = some dl ∧
        (∀ e ∈ del0, e ∈ dl) ∧
        (∀ m ∈ ms, ∀ i, resolveIamId m = some i →
          truthyStr (resolveIamId m) = true →
          ∀ created,
            parse_user_created_at deps.parseTs (deps.profileOf i) = some created →
            7 ≤ Int.fdiv (deps.now - created) 86400 →
            ∀ st bd, deps.deleteOf i = DeleteRes.http st bd →
              { iam_id := i, delete_status := st, delete_body := bd } ∈ dl) := by
  induction ms with
  | nil =>
    intro calls0 del0
    refine ⟨del0, by simp [sweep], fun e he => he, ?_⟩
    intro m hm
    simp at hm
  | cons m rest ih =>
    intro calls0 del0
    cases hid : truthyStr (resolveIamId m) with
    | false =>
      simp only [sweep, hid, Bool.false_eq_true, not_false_eq_true, if_pos]
      obtain ⟨dl, hdl, hmono, hcol⟩ := ih calls0 del0
      refine ⟨dl, hdl, hmono, ?_⟩
      intro m2 hm2 i hi hti created hp hexp st bd hdel2
      rcases List.mem_cons.mp hm2 with rfl | hm2r
      · rw [hid] at hti
        exact Bool.noConfusion hti
      · exact hcol m2 hm2r i hi hti created hp hexp st bd hdel2
    | true =>
      simp only [sweep, hid, not_true_eq_false, if_false]
      cases hparse : parse_user_created_at deps.parseTs
          (deps.profileOf ((resolveIamId m).getD "")) with
      | none =>
        simp only [hparse]
        obtain ⟨dl, hdl, hmono, hcol⟩ := ih _ _
        refine ⟨dl, hdl, hmono, ?_⟩
        intro m2 hm2 i hi hti created hp hexp st bd hdel2
        rcases List.mem_cons.mp hm2 with rfl | hm2r
        · have hgi : (resolveIamId m2).getD "" = i := by rw [hi]; rfl
          rw [hgi] at hparse
          rw [hparse] at hp
          simp at hp
        · exact hcol m2 hm2r i hi hti created hp hexp st bd hdel2
      | some created0 =>
        simp only [hparse]
        by_cases hexp0 : 7 ≤ Int.fdiv (deps.now - created0) 86400
        · simp only [if_pos hexp0]
          cases hdel : deps.deleteOf ((resolveIamId m).getD "") with
          | transportError => exact absurd hdel (hnr _)
          | http st0 bd0 =>
            simp only [hdel]
            obtain ⟨dl, hdl, hmono, hcol⟩ := ih _ _
            refine ⟨dl, hdl, fun e he => hmono e (by simp [he]), ?_⟩
            intro m2 hm2 i hi hti created hp hexp st bd hdel2
            rcases List.mem_cons.mp hm2 with rfl | hm2r
            · have hgi : (resolveIamId m2).getD "" = i := by rw [hi]; rfl
              rw [hgi] at hdel
              rw [hdel] at hdel2
              injection hdel2 with h1 h2
              subst h1
              subst h2
              have hent := hmono { iam_id := (resolveIamId m2).getD ""
                                 , delete_status := st0, delete_body := bd0 } (by simp)
              rw [hgi] at hent
              exact hent
            · exact hcol m2 hm2r i hi hti created hp hexp st bd hdel2
        · simp only [if_neg hexp0]
          obtain ⟨dl, hdl, hmono, hcol⟩ := ih _ _
          refine ⟨dl, hdl, hmono, ?_⟩
          intro m2 hm2 i hi hti created hp hexp st bd hdel2
          rcases List.mem_cons.mp hm2 with rfl | hm2r
          · have hgi : (resolveIamId m2).getD "" = i := by rw [hi]; rfl
            rw [hgi] at hparse
            rw [hparse] at hp
            injection hp with hc
            subst hc
            exact absurd hexp hexp0
          · exact hcol m2 hm2r i hi hti created hp hexp st bd hdel2

/-- C9 (amended): per-member deletion failures reported over HTTP (any non-2xx
status) are collected per member and never abort the sweep — when every deletion
answers over HTTP, `/cleanup` (past its gate and group checks) completes with
status 200, checks every member, and its report holds an entry for each deleted
member carrying exactly the HTTP status and body that member's deletion answered
with; only a raising transport error/timeout aborts the sweep (see the
counterexample). -/
theorem cleanup_http_failures_isolated (cfg : AppConfig) (ht : Option String)
    (deps : CleanupDeps)
    (hgate : gateDenied cfg ht = false)
    (hgid : truthyStr (find_access_group_id deps.groups cfg.accessGroupName) = true)
    (hnr : ∀ i, deps.deleteOf i ≠ DeleteRes.transportError) :
    (cleanup cfg ht deps).status = 200 ∧
    (cleanup cfg ht deps).checked = some deps.members.length ∧
    ∃ dl, (cleanup cfg ht deps).deleted = some dl ∧
      ∀ m ∈ deps.members, ∀ i, resolveIamId m = some i →
        truthyStr (resolveIamId m) = true →
        ∀ created,
          parse_user_created_at deps.parseTs (deps.profileOf i) = some created →
          7 ≤ Int.fdiv (deps.now - created) 86400 →
          ∀ st bd, deps.deleteOf i = DeleteRes.http st bd →
            { iam_id := i, delete_status := st, delete_body := bd } ∈ dl := by
  have hred : cleanup cfg ht deps =
      sweep deps deps.members.length deps.members
        [ExtCall.tokenExchange, ExtCall.groupLookup cfg.accessGroupName,
         ExtCall.memberList] [] := by
    simp [cleanup, hgate, hgid]
  rw [hred]
  obtain ⟨hst, _, hck⟩ := sweep_completes deps deps.members.length hnr deps.members
    [ExtCall.tokenExchange, ExtCall.groupLookup cfg.accessGroupName,
     ExtCall.memberList] []
  obtain ⟨dl, hdl, _, hcol⟩ := sweep_collects deps deps.members.length hnr deps.members
    [ExtCall.tokenExchange, ExtCall.groupLookup cfg.accessGroupName,
     ExtCall.memberList] []
  exact ⟨hst, hck, dl, hdl, hcol⟩

/-- Witness for the amended C9 at a concrete input: both members expired, the
first deletion answers HTTP 500, the second HTTP 200 — the sweep completes and
each member's entry carries its deletion's status. -/
theorem cleanup_http_failures_isolated_witness :
    (gateDenied cfgOpen none = false ∧
     truthyStr (find_access_group_id twoMemberHttpDeps.groups cfgOpen.accessGroupName) = true ∧
     (∀ i, twoMemberHttpDeps.deleteOf i ≠ DeleteRes.transportError)) ∧
    ((cleanup cfgOpen none twoMemberHttpDeps).status = 200 ∧
     (cleanup cfgOpen none twoMemberHttpDeps).checked =
       some twoMemberHttpDeps.members.length ∧
     ∃ dl, (cleanup cfgOpen none twoMemberHttpDeps).deleted = some dl ∧
       ∀ m ∈ twoMemberHttpDeps.members, ∀ i, resolveIamId m = some i →
         truthyStr (resolveIamId m) = true →
         ∀ created,
           parse_user_created_at twoMemberHttpDeps.parseTs
             (twoMemberHttpDeps.profileOf i) = some created →
           7 ≤ Int.fdiv (twoMemberHttpDeps.now - created) 86400 →
           ∀ st bd, twoMemberHttpDeps.deleteOf i = DeleteRes.http st bd →
             { iam_id := i, delete_status := st, delete_body := bd } ∈ dl) :=
  ⟨⟨by decide, by decide, fun i => by simp [twoMemberHttpDeps]; split <;> simp⟩,
   cleanup_http_failures_isolated cfgOpen none twoMemberHttpDeps
     (by decide) (by decide) (fun i => by simp [twoMemberHttpDeps]; split <;> simp)⟩
